import Mathlib

/-!
Shallow embedding of `approve-dependabot-prs.js` (GitHub Dependabot approver).

The external GitHub API is modelled as an environment `Env` of response
functions; every network call the script makes is recorded as a `Call` event
in a trace.  Each JavaScript function of the script is translated into a Lean
function returning its result together with the list of calls it issued.
Thrown exceptions are modelled with `Except ApiError`.
-/

namespace Approver

/-- An error thrown by an API call: optional HTTP status and a message. -/
structure ApiError where
  status : Option Nat
  message : String
deriving DecidableEq

/-- An item of the `pulls.list` response: `number`, `title`,
`user?.login` (the author may be absent) and `head.sha`. -/
structure ListPR where
  number : Nat
  title : String
  userLogin : Option String
  headSha : String
deriving DecidableEq

/-- The `pulls.get` response: fresh details including `mergeable_state`
(which the list call does not populate) and the fresh `head.sha`. -/
structure PRDetails where
  number : Nat
  headSha : String
  mergeable_state : String
deriving DecidableEq

/-- A review from `pulls.listReviews`: `user.login` and `state`. -/
structure Review where
  userLogin : String
  state : String
deriving DecidableEq

/-- The result of `checkSAMLAccess`: `{ hasAccess, error }`. -/
structure AccessInfo where
  hasAccess : Bool
  error : Option String
deriving DecidableEq

/-- One network call issued by the script, with its arguments. -/
inductive Call where
  | orgGet (org : String)
  | pullsList (owner repo : String)
  | pullsGet (owner repo : String) (number : Nat)
  | updateBranch (owner repo : String) (number : Nat) (expectedHeadSha : String)
  | combinedStatus (owner repo : String) (ref : String)
  | getAuthenticated
  | listReviews (owner repo : String) (number : Nat)
  | createReview (owner repo : String) (number : Nat) (event : String) (body : String)
deriving DecidableEq

/-- The remote API, as deterministic response functions.  A `.error`
result models the corresponding Octokit call throwing. -/
structure Env where
  orgGet : String → Except ApiError Unit
  pullsList : String → String → Except ApiError (List ListPR)
  pullsGet : String → String → Nat → Except ApiError PRDetails
  updateBranch : String → String → Nat → String → Except ApiError Unit
  combinedStatus : String → String → String → Except ApiError String
  getAuthenticated : Except ApiError String
  listReviews : String → String → Nat → Except ApiError (List Review)
  createReview : String → String → Nat → String → String → Except ApiError Unit

/-- The mutable `stats` object of `main`:
`{ approved, skipped, updated, saml_blocked }`. -/
structure Stats where
  approved : Nat
  skipped : Nat
  updated : Nat
  saml_blocked : Nat
deriving DecidableEq

/-! ### String helpers

`fullName.split("/")`, `.toLowerCase()` and `.includes(...)` from the script,
re-implemented structurally over `List Char` so the kernel can evaluate them. -/

/-- ASCII lower-casing of one character (JS `toLowerCase` on login names). -/
def lowerChar (c : Char) : Char :=
  if c.isUpper then Char.ofNat (c.toNat + 32) else c

/-- Lower-case a string character-wise. -/
def lowerStr (s : String) : String := String.mk (s.data.map lowerChar)

/-- Does the haystack start with the needle? -/
def leadsWith : List Char → List Char → Bool
  | [], _ => true
  | _ :: _, [] => false
  | a :: as, b :: bs => a == b && leadsWith as bs

/-- Does the haystack contain the needle as a contiguous substring
(JS `String.prototype.includes`)? -/
def hasSub (needle : List Char) : List Char → Bool
  | [] => leadsWith needle []
  | c :: rest => leadsWith needle (c :: rest) || hasSub needle rest

/-- `split("/")` accumulator: splits the character list on `/`. -/
def splitSlashAux : List Char → List Char → List String
  | [], acc => [String.mk acc.reverse]
  | c :: cs, acc =>
    if c = '/' then String.mk acc.reverse :: splitSlashAux cs []
    else splitSlashAux cs (c :: acc)

/-- `fullName.split("/")`. -/
def lineParts (s : String) : List String := splitSlashAux s.data []

/-- `const [owner, repo] = fullName.split("/")`: the `owner` binding
(JS `undefined` becomes `""`; both are falsy in the guard). -/
def lineOwner (s : String) : String := (lineParts s).getD 0 ""

/-- The `repo` binding of the same destructuring. -/
def lineRepo (s : String) : String := (lineParts s).getD 1 ""

/-! ### Functions of the script -/

/-- `isPullRequestGreen(owner, repo, pr)`: fetches the combined status for
`pr.head.sha` and returns `data.state === "success"`; on a thrown error it
returns `false` (fail closed).  Also returns the calls issued. -/
def isPullRequestGreen (env : Env) (owner repo : String) (pr : ListPR) :
    Bool × List Call :=
  match env.combinedStatus owner repo pr.headSha with
  | .ok state => (state == "success", [.combinedStatus owner repo pr.headSha])
  | .error _ => (false, [.combinedStatus owner repo pr.headSha])

/-- `const outdatedStates = ["behind", "blocked"]`. -/
def outdatedStates : List String := ["behind", "blocked"]

/-- `syncBranchIfBehind(owner, repo, pr)`: if `pr.mergeable_state` is not in
`outdatedStates`, return `false` without any call; otherwise issue one
`update-branch` request with `expected_head_sha: pr.head.sha` and return
`true` on success, `false` on any thrown error (422 or otherwise). -/
def syncBranchIfBehind (env : Env) (owner repo : String) (pr : PRDetails) :
    Bool × List Call :=
  if pr.mergeable_state ∈ outdatedStates then
    match env.updateBranch owner repo pr.number pr.headSha with
    | .ok _ => (true, [.updateBranch owner repo pr.number pr.headSha])
    | .error _ => (false, [.updateBranch owner repo pr.number pr.headSha])
  else
    (false, [])

/-- The duplicate test of `approvePullRequest`:
`r.user.login === currentUserLogin && r.state === "APPROVED"`. -/
def isApprovedBy (login : String) (r : Review) : Bool :=
  r.userLogin == login && r.state == "APPROVED"

/-- `approvePullRequest(owner, repo, pullNumber)`: resolve the acting
identity, list reviews, and create an `APPROVE` review with `body: ""`
unless one by the acting identity already exists.  Exceptions from the three
calls are not caught here; they propagate (`.error`). -/
def approvePullRequest (env : Env) (owner repo : String) (pullNumber : Nat) :
    Except ApiError Unit × List Call :=
  match env.getAuthenticated with
  | .error e => (.error e, [.getAuthenticated])
  | .ok login =>
    match env.listReviews owner repo pullNumber with
    | .error e => (.error e, [.getAuthenticated, .listReviews owner repo pullNumber])
    | .ok reviews =>
      match reviews.any (isApprovedBy login) with
      | true => (.ok (), [.getAuthenticated, .listReviews owner repo pullNumber])
      | false =>
        match env.createReview owner repo pullNumber "APPROVE" "" with
        | .ok _ =>
          (.ok (), [.getAuthenticated, .listReviews owner repo pullNumber,
            .createReview owner repo pullNumber "APPROVE" ""])
        | .error e =>
          (.error e, [.getAuthenticated, .listReviews owner repo pullNumber,
            .createReview owner repo pullNumber "APPROVE" ""])

/-- The 403 message of `checkSAMLAccess` (step-up / SAML authorization). -/
def samlForbiddenMsg (owner : String) : String :=
  "SAML SSO: Token not authorized for organization \x27" ++ owner ++
    "\x27. Please authorize your token at: https://github.com/settings/tokens"

/-- The 401 message of `checkSAMLAccess` (invalid or expired credential). -/
def badTokenMsg : String :=
  "Authentication failed: Invalid or expired token. Please check your token in token.txt"

/-- `checkSAMLAccess(owner)`: probe `orgs.get`; 403 → no access with the
SAML step-up message, 401 → no access with the invalid-token message, any
other outcome (success included) → access granted. -/
def checkSAMLAccess (env : Env) (owner : String) : AccessInfo × List Call :=
  match env.orgGet owner with
  | .ok _ => ({ hasAccess := true, error := none }, [.orgGet owner])
  | .error e =>
    if e.status = some 403 then
      ({ hasAccess := false, error := some (samlForbiddenMsg owner) }, [.orgGet owner])
    else if e.status = some 401 then
      ({ hasAccess := false, error := some badTokenMsg }, [.orgGet owner])
    else
      ({ hasAccess := true, error := none }, [.orgGet owner])

/-- The dependabot filter of `main`:
`pr.user?.login?.toLowerCase().includes("dependabot")`. -/
def isDependabot (pr : ListPR) : Bool :=
  match pr.userLogin with
  | some l => hasSub "dependabot".data (lowerStr l).data
  | none => false

/-- The outcome of the per-PR body of the inner loop of `main` (when it does not
throw): the branch that was taken and the counter it bumps. -/
inductive POutcome where
  | synced
  | notGreen
  | approved
deriving DecidableEq

/-- The counter bump `main` performs for one non-throwing PR outcome:
`stats.updated++`, `stats.skipped++` or `stats.approved++`. -/
def bumpStats (o : POutcome) (s : Stats) : Stats :=
  match o with
  | .synced => { s with updated := s.updated + 1 }
  | .notGreen => { s with skipped := s.skipped + 1 }
  | .approved => { s with approved := s.approved + 1 }

/-- The body of the inner `for (const pr of dependabotPRs)` loop of `main` for one
PR: refresh details (`pulls.get`), maybe sync, else check greenness against
`pr` (the list item), else approve.  `.error` models an exception escaping
to the per-repository `catch`. -/
def runPR (env : Env) (owner repo : String) (pr : ListPR) :
    Except ApiError POutcome × List Call :=
  match env.pullsGet owner repo pr.number with
  | .error e => (.error e, [.pullsGet owner repo pr.number])
  | .ok prDetails =>
    let t0 : List Call := [.pullsGet owner repo pr.number]
    let sync := syncBranchIfBehind env owner repo prDetails
    if sync.1 then
      (.ok .synced, t0 ++ sync.2)
    else
      let green := isPullRequestGreen env owner repo pr
      if green.1 then
        let appr := approvePullRequest env owner repo pr.number
        match appr.1 with
        | .ok _ => (.ok .approved, t0 ++ sync.2 ++ green.2 ++ appr.2)
        | .error e => (.error e, t0 ++ sync.2 ++ green.2 ++ appr.2)
      else
        (.ok .notGreen, t0 ++ sync.2 ++ green.2)

/-- The inner loop of `main` over the filtered dependabot PRs, threading the
counters.  The first exception aborts the loop and is returned; outcomes
already recorded keep their counter bumps. -/
def runPRs (env : Env) (owner repo : String) (stats : Stats) :
    List ListPR → Stats × List Call × Option ApiError
  | [] => (stats, [], none)
  | pr :: rest =>
    match runPR env owner repo pr with
    | (.error e, t) => (stats, t, some e)
    | (.ok o, t) =>
      let next := runPRs env owner repo (bumpStats o stats) rest
      (next.1, t ++ next.2.1, next.2.2)

/-- The per-repository `catch` block of `main`: `err.status === 403` or
`401` → `stats.saml_blocked++`, anything else → `stats.skipped++`. -/
def catchUpdate (s : Stats) (e : ApiError) : Stats :=
  if e.status = some 403 ∨ e.status = some 401 then
    { s with saml_blocked := s.saml_blocked + 1 }
  else
    { s with skipped := s.skipped + 1 }

/-- The `try { ... } catch` body of `main` for one repository that passed
the access gate: list open PRs, filter to dependabot authors, run the inner
loop, and on an escaped exception apply the `catch` counter update. -/
def processRepoBody (env : Env) (owner repo : String) (stats : Stats) :
    Stats × List Call :=
  match env.pullsList owner repo with
  | .error e => (catchUpdate stats e, [.pullsList owner repo])
  | .ok pullRequests =>
    let dependabotPRs := pullRequests.filter isDependabot
    let r := runPRs env owner repo stats dependabotPRs
    match r.2.2 with
    | none => (r.1, Call.pullsList owner repo :: r.2.1)
    | some e => (catchUpdate r.1 e, Call.pullsList owner repo :: r.2.1)

/-- The in-memory state of the outer loop of `main`: the counters, the
`orgAccessCache` map, and the cumulative trace of issued calls. -/
structure LoopState where
  stats : Stats
  cache : List (String × AccessInfo)
  trace : List Call
deriving DecidableEq

/-- `orgAccessCache.get(owner)` over the association-list model of the map. -/
def cacheLookup (owner : String) : List (String × AccessInfo) → Option AccessInfo
  | [] => none
  | (k, v) :: rest => if k = owner then some v else cacheLookup owner rest

/-- The part of an outer loop iteration of `main` after the access cache has
been consulted or filled (`newCache`) and the probe calls recorded
(`probeTrace`): on denied access, `stats.saml_blocked++` and `continue`;
otherwise run the repository body. -/
def afterGate (env : Env) (st : LoopState) (owner repo : String)
    (info : AccessInfo) (newCache : List (String × AccessInfo))
    (probeTrace : List Call) : LoopState :=
  if info.hasAccess then
    { stats := (processRepoBody env owner repo st.stats).1, cache := newCache,
      trace := st.trace ++ probeTrace ++ (processRepoBody env owner repo st.stats).2 }
  else
    { stats := { st.stats with saml_blocked := st.stats.saml_blocked + 1 },
      cache := newCache, trace := st.trace ++ probeTrace }

/-- The access-cache consultation of one outer-loop iteration: on a cache
hit reuse the stored decision with no probe call; on a miss run
`checkSAMLAccess` and store its result. -/
def gateStep (env : Env) (st : LoopState) (owner repo : String) :
    Option AccessInfo → LoopState
  | some info => afterGate env st owner repo info st.cache []
  | none =>
    afterGate env st owner repo (checkSAMLAccess env owner).1
      ((owner, (checkSAMLAccess env owner).1) :: st.cache)
      (checkSAMLAccess env owner).2

/-- One iteration of the `for (const fullName of repos)` loop of `main`:
parse the line, consult or fill the per-organization access cache,
short-circuit to `saml_blocked++` on denied access, otherwise process the
repository. -/
def processLine (env : Env) (st : LoopState) (fullName : String) : LoopState :=
  if lineOwner fullName = "" ∨ lineRepo fullName = "" then st
  else
    gateStep env st (lineOwner fullName) (lineRepo fullName)
      (cacheLookup (lineOwner fullName) st.cache)

/-- The state at the top of `main`: zeroed counters, empty cache, no calls. -/
def initState : LoopState :=
  { stats := { approved := 0, skipped := 0, updated := 0, saml_blocked := 0 },
    cache := [], trace := [] }

/-- The whole of `main`: fold the outer loop over the configured repository
lines. -/
def mainRun (env : Env) (repos : List String) : LoopState :=
  repos.foldl (processLine env) initState

/-! ### Call classifiers and counters -/

/-- Count the calls in a trace satisfying a predicate. -/
def countCalls (p : Call → Bool) (t : List Call) : Nat := (t.filter p).length

/-- Is this a combined-status (CI) query? -/
def isCombinedCall : Call → Bool
  | .combinedStatus _ _ _ => true
  | _ => false

/-- Is this a review-creation call? -/
def isCreateReviewCall : Call → Bool
  | .createReview _ _ _ _ _ => true
  | _ => false

/-- Is this a review-listing call? -/
def isListReviewsCall : Call → Bool
  | .listReviews _ _ _ => true
  | _ => false

/-- Is this an update-branch request? -/
def isUpdateBranchCall : Call → Bool
  | .updateBranch _ _ _ _ => true
  | _ => false

/-- Is this the organization probe for the given organization? -/
def isOrgGetFor (owner : String) : Call → Bool
  | .orgGet o => o == owner
  | _ => false

/-- The owner/organization a call is addressed to, when it names one
(`getAuthenticated` names none). -/
def callOwner : Call → Option String
  | .orgGet o => some o
  | .pullsList o _ => some o
  | .pullsGet o _ _ => some o
  | .updateBranch o _ _ _ => some o
  | .combinedStatus o _ _ => some o
  | .getAuthenticated => none
  | .listReviews o _ _ => some o
  | .createReview o _ _ _ _ => some o

/-! ### Helper lemmas -/

theorem countCalls_append (p : Call → Bool) (t1 t2 : List Call) :
    countCalls p (t1 ++ t2) = countCalls p t1 + countCalls p t2 := by
  simp [countCalls, List.filter_append]

theorem checkSAMLAccess_trace (env : Env) (owner : String) :
    (checkSAMLAccess env owner).2 = [Call.orgGet owner] := by
  unfold checkSAMLAccess
  split
  · rfl
  · split_ifs <;> rfl

theorem isPullRequestGreen_trace (env : Env) (owner repo : String) (pr : ListPR) :
    (isPullRequestGreen env owner repo pr).2 = [Call.combinedStatus owner repo pr.headSha] := by
  unfold isPullRequestGreen
  cases env.combinedStatus owner repo pr.headSha <;> rfl

theorem syncBranchIfBehind_not_stale (env : Env) (owner repo : String) (d : PRDetails)
    (h : d.mergeable_state ∉ outdatedStates) :
    syncBranchIfBehind env owner repo d = (false, []) := by
  simp [syncBranchIfBehind, h]

theorem syncBranchIfBehind_trace (env : Env) (owner repo : String) (d : PRDetails)
    (h : d.mergeable_state ∈ outdatedStates) :
    (syncBranchIfBehind env owner repo d).2 =
      [Call.updateBranch owner repo d.number d.headSha] := by
  unfold syncBranchIfBehind
  rw [if_pos h]
  cases env.updateBranch owner repo d.number d.headSha <;> rfl

theorem syncBranchIfBehind_calls (env : Env) (owner repo : String) (d : PRDetails) :
    ∀ c ∈ (syncBranchIfBehind env owner repo d).2,
      c = Call.updateBranch owner repo d.number d.headSha := by
  unfold syncBranchIfBehind
  split
  · cases env.updateBranch owner repo d.number d.headSha <;> simp
  · simp

theorem approvePullRequest_calls (env : Env) (owner repo : String) (n : Nat) :
    ∀ c ∈ (approvePullRequest env owner repo n).2,
      c = Call.getAuthenticated ∨ c = Call.listReviews owner repo n ∨
        c = Call.createReview owner repo n "APPROVE" "" := by
  unfold approvePullRequest
  cases env.getAuthenticated with
  | error e => simp
  | ok login =>
    cases env.listReviews owner repo n with
    | error e => simp
    | ok reviews =>
      cases hany : reviews.any (isApprovedBy login) with
      | true => simp [hany]
      | false =>
        cases hcr : env.createReview owner repo n "APPROVE" "" with
        | ok u => intro c hc; simp [hany, hcr] at hc; tauto
        | error e => intro c hc; simp [hany, hcr] at hc; tauto

/-! ### C3: CI readiness check -/

/-- C3: the CI readiness check returns ready iff the combined-status
aggregate state equals "success"; every other state yields not ready, and a
thrown status query yields not ready (fails closed), never ready. -/
theorem c3_ci_green_iff_success (env : Env) (owner repo : String) (pr : ListPR) :
    ((isPullRequestGreen env owner repo pr).1 = true ↔
      env.combinedStatus owner repo pr.headSha = .ok "success") ∧
    (∀ e, env.combinedStatus owner repo pr.headSha = .error e →
      (isPullRequestGreen env owner repo pr).1 = false) := by
  constructor
  · cases h : env.combinedStatus owner repo pr.headSha with
    | error e => simp [isPullRequestGreen, h]
    | ok state => simp [isPullRequestGreen, h]
  · intro e he
    simp [isPullRequestGreen, he]

/-- A pull request and environment exercising the fail-closed branch. -/
def prC3 : ListPR :=
  { number := 7, title := "bump dep", userLogin := some "dependabot[bot]", headSha := "sha7" }

/-- An environment whose combined-status query throws. -/
def envC3 : Env :=
  { orgGet := fun _ => .ok ()
    pullsList := fun _ _ => .ok [prC3]
    pullsGet := fun _ _ _ => .ok { number := 7, headSha := "sha7", mergeable_state := "clean" }
    updateBranch := fun _ _ _ _ => .ok ()
    combinedStatus := fun _ _ _ => .error { status := some 500, message := "boom" }
    getAuthenticated := .ok "me"
    listReviews := fun _ _ _ => .ok []
    createReview := fun _ _ _ _ _ => .ok () }

/-- Witness for C3: on a throwing status query the check returns not ready. -/
theorem c3_witness : (isPullRequestGreen envC3 "o" "r" prC3).1 = false :=
  (c3_ci_green_iff_success envC3 "o" "r" prC3).2 { status := some 500, message := "boom" } rfl

/-! ### C4: duplicate-approval guard -/

/-- C4: if the review list contains an APPROVED review by the acting
identity, the approve operation succeeds without any review-creation call. -/
theorem c4_approve_idempotent (env : Env) (owner repo : String) (n : Nat)
    (login : String) (reviews : List Review)
    (hauth : env.getAuthenticated = .ok login)
    (hrev : env.listReviews owner repo n = .ok reviews)
    (hdup : ∃ r ∈ reviews, r.userLogin = login ∧ r.state = "APPROVED") :
    (approvePullRequest env owner repo n).1 = .ok () ∧
    countCalls isCreateReviewCall (approvePullRequest env owner repo n).2 = 0 := by
  have hany : reviews.any (isApprovedBy login) = true := by
    rcases hdup with ⟨r, hr, h1, h2⟩
    simp only [List.any_eq_true]
    exact ⟨r, hr, by simp [isApprovedBy, h1, h2]⟩
  simp [approvePullRequest, hauth, hrev, hany, countCalls, isCreateReviewCall]

/-- An environment in which the acting identity has already approved PR 5. -/
def envC4 : Env :=
  { orgGet := fun _ => .ok ()
    pullsList := fun _ _ => .ok []
    pullsGet := fun _ _ _ => .error { status := none, message := "unused" }
    updateBranch := fun _ _ _ _ => .ok ()
    combinedStatus := fun _ _ _ => .ok "success"
    getAuthenticated := .ok "me"
    listReviews := fun _ _ _ => .ok [{ userLogin := "me", state := "APPROVED" }]
    createReview := fun _ _ _ _ _ => .ok () }

/-- Witness for C4: a second pass over an already-approved pull request
issues zero review-creation calls. -/
theorem c4_witness :
    (approvePullRequest envC4 "o" "r" 5).1 = .ok () ∧
    countCalls isCreateReviewCall (approvePullRequest envC4 "o" "r" 5).2 = 0 :=
  c4_approve_idempotent envC4 "o" "r" 5 "me" [{ userLogin := "me", state := "APPROVED" }]
    rfl rfl ⟨{ userLogin := "me", state := "APPROVED" }, by simp, rfl, rfl⟩

/-! ### C5: access gate result mapping -/

/-- C5: the access gate denies access exactly on a 403 (with the SAML
step-up reason) or a 401 (with the invalid-credential reason); every other
outcome, probe success included, grants access (fail-open). -/
theorem c5_access_gate_mapping (env : Env) (owner : String) :
    ((checkSAMLAccess env owner).1.hasAccess = false ↔
      ∃ e, env.orgGet owner = .error e ∧
        (e.status = some 403 ∨ e.status = some 401)) ∧
    (∀ e, env.orgGet owner = .error e → e.status = some 403 →
      (checkSAMLAccess env owner).1.error = some (samlForbiddenMsg owner)) ∧
    (∀ e, env.orgGet owner = .error e → e.status = some 401 →
      (checkSAMLAccess env owner).1.error = some badTokenMsg) := by
  refine ⟨?_, ?_, ?_⟩
  · cases h : env.orgGet owner with
    | ok u => simp [checkSAMLAccess, h]
    | error e =>
      by_cases h403 : e.status = some 403
      · simp [checkSAMLAccess, h, h403]
      · by_cases h401 : e.status = some 401
        · simp [checkSAMLAccess, h, h403, h401]
        · simp [checkSAMLAccess, h, h403, h401]
  · intro e he h403
    simp [checkSAMLAccess, he, h403]
  · intro e he h401
    by_cases h403 : e.status = some 403
    · rw [h401] at h403; cases h403
    · simp [checkSAMLAccess, he, h403, h401]

/-- An environment whose organization probe returns 403. -/
def envC5 : Env :=
  { orgGet := fun _ => .error { status := some 403, message := "saml" }
    pullsList := fun _ _ => .ok []
    pullsGet := fun _ _ _ => .error { status := none, message := "unused" }
    updateBranch := fun _ _ _ _ => .ok ()
    combinedStatus := fun _ _ _ => .ok "success"
    getAuthenticated := .ok "me"
    listReviews := fun _ _ _ => .ok []
    createReview := fun _ _ _ _ _ => .ok () }

/-- Witness for C5: a 403 probe yields no access with the step-up reason. -/
theorem c5_witness :
    (checkSAMLAccess envC5 "acme").1.hasAccess = false ∧
    (checkSAMLAccess envC5 "acme").1.error = some (samlForbiddenMsg "acme") :=
  ⟨((c5_access_gate_mapping envC5 "acme").1).mpr
      ⟨{ status := some 403, message := "saml" }, rfl, Or.inl rfl⟩,
    (c5_access_gate_mapping envC5 "acme").2.1 { status := some 403, message := "saml" } rfl rfl⟩

/-! ### More call-counting helpers -/

theorem countCalls_eq_zero_of_forall {p : Call → Bool} {t : List Call}
    (h : ∀ c ∈ t, p c = false) : countCalls p t = 0 := by
  simp only [countCalls, List.length_eq_zero]
  exact List.filter_eq_nil_iff.mpr (by intro c hc; simp [h c hc])

theorem approve_no_updateBranch (env : Env) (owner repo : String) (n : Nat) :
    countCalls isUpdateBranchCall (approvePullRequest env owner repo n).2 = 0 :=
  countCalls_eq_zero_of_forall (by
    intro c hc
    rcases approvePullRequest_calls env owner repo n c hc with h | h | h <;>
      simp [h, isUpdateBranchCall])

theorem approve_no_combined (env : Env) (owner repo : String) (n : Nat) :
    countCalls isCombinedCall (approvePullRequest env owner repo n).2 = 0 :=
  countCalls_eq_zero_of_forall (by
    intro c hc
    rcases approvePullRequest_calls env owner repo n c hc with h | h | h <;>
      simp [h, isCombinedCall])

/-! ### C1: stale branch handling -/

/-- C1 (amended): for a freshly fetched `mergeable_state` in
{behind, blocked}, exactly one update-branch request is issued with
`expected_head_sha` set to the fresh head SHA; when it succeeds, the pass
stops for that PR (zero CI-status and review calls); when it is rejected,
the engine falls through to the CI-status query in the same pass. -/
theorem c1_stale_sync_short_circuit (env : Env) (owner repo : String)
    (pr : ListPR) (d : PRDetails)
    (hget : env.pullsGet owner repo pr.number = .ok d)
    (hstale : d.mergeable_state ∈ outdatedStates) :
    (env.updateBranch owner repo d.number d.headSha = .ok () →
      runPR env owner repo pr =
        (.ok .synced,
          [.pullsGet owner repo pr.number,
           .updateBranch owner repo d.number d.headSha])) ∧
    (∀ e, env.updateBranch owner repo d.number d.headSha = .error e →
      countCalls isUpdateBranchCall (runPR env owner repo pr).2 = 1 ∧
      Call.combinedStatus owner repo pr.headSha ∈ (runPR env owner repo pr).2) := by
  constructor
  · intro hub
    have hsync : syncBranchIfBehind env owner repo d =
        (true, [.updateBranch owner repo d.number d.headSha]) := by
      simp [syncBranchIfBehind, hstale, hub]
    simp [runPR, hget, hsync]
  · intro e hub
    have hsync : syncBranchIfBehind env owner repo d =
        (false, [.updateBranch owner repo d.number d.headSha]) := by
      simp [syncBranchIfBehind, hstale, hub]
    have hgt := isPullRequestGreen_trace env owner repo pr
    cases hg : (isPullRequestGreen env owner repo pr).1 with
    | false =>
      have hr : runPR env owner repo pr =
          (.ok .notGreen,
            [.pullsGet owner repo pr.number,
             .updateBranch owner repo d.number d.headSha,
             .combinedStatus owner repo pr.headSha]) := by
        simp [runPR, hget, hsync, hg, hgt]
      rw [hr]
      exact ⟨by simp [countCalls, isUpdateBranchCall], by simp⟩
    | true =>
      have hr2 : (runPR env owner repo pr).2 =
          [Call.pullsGet owner repo pr.number,
           Call.updateBranch owner repo d.number d.headSha,
           Call.combinedStatus owner repo pr.headSha] ++
            (approvePullRequest env owner repo pr.number).2 := by
        cases happr : (approvePullRequest env owner repo pr.number).1 with
        | error e' => simp [runPR, hget, hsync, hg, hgt, happr]
        | ok u => simp [runPR, hget, hsync, hg, hgt, happr]
      rw [hr2]
      constructor
      · rw [countCalls_append, approve_no_updateBranch]
        simp [countCalls, isUpdateBranchCall]
      · simp

/-- A stale dependabot pull request, as the list call reports it. -/
def prC1 : ListPR :=
  { number := 3, title := "bump y", userLogin := some "dependabot[bot]", headSha := "sha3" }

/-- Fresh details for `prC1`: behind its base. -/
def dC1 : PRDetails := { number := 3, headSha := "sha3", mergeable_state := "behind" }

/-- An environment whose update-branch request is rejected with 422. -/
def envC1 : Env :=
  { orgGet := fun _ => .ok ()
    pullsList := fun _ _ => .ok [prC1]
    pullsGet := fun _ _ _ => .ok dC1
    updateBranch := fun _ _ _ _ => .error { status := some 422, message := "Branch was not updated" }
    combinedStatus := fun _ _ _ => .ok "pending"
    getAuthenticated := .ok "me"
    listReviews := fun _ _ _ => .ok []
    createReview := fun _ _ _ _ _ => .ok () }

/-- Counterexample to C1 as stated: with `mergeable_state = "behind"` and a
rejected update-branch request, the same pass still issues a CI-status
query (one update-branch request and one combined-status query appear in
the run trace), contradicting "zero CI-status queries ... regardless of
whether the update-branch request succeeds or is rejected". -/
theorem c1_counterexample :
    countCalls isUpdateBranchCall (mainRun envC1 ["o/r"]).trace = 1 ∧
    countCalls isCombinedCall (mainRun envC1 ["o/r"]).trace = 1 := by
  constructor <;> decide

/-- Same environment but with a successful update-branch request. -/
def envC1ok : Env :=
  { envC1 with updateBranch := fun _ _ _ _ => .ok () }

/-- Witness for C1 (amended), successful-update branch: the pass stops
after the single update-branch request. -/
theorem c1_witness :
    runPR envC1ok "o" "r" prC1 =
      (.ok .synced, [.pullsGet "o" "r" 3, .updateBranch "o" "r" 3 "sha3"]) :=
  (c1_stale_sync_short_circuit envC1ok "o" "r" prC1 dC1 rfl (by decide)).1 rfl

/-! ### C9: fresh green PR is approved with one empty-bodied review -/

/-- C9: a dependency-bot PR that is not stale, whose combined status is
"success", and which has no prior APPROVED review by the acting identity,
yields outcome approved with exactly one review-creation call, carrying
event APPROVE and an empty body. -/
theorem c9_fresh_green_approved (env : Env) (owner repo : String)
    (pr : ListPR) (d : PRDetails) (login : String) (reviews : List Review)
    (_hdep : isDependabot pr = true)
    (hget : env.pullsGet owner repo pr.number = .ok d)
    (hclean : d.mergeable_state ∉ outdatedStates)
    (hstatus : env.combinedStatus owner repo pr.headSha = .ok "success")
    (hauth : env.getAuthenticated = .ok login)
    (hrev : env.listReviews owner repo pr.number = .ok reviews)
    (hnodup : reviews.any (isApprovedBy login) = false)
    (hcreate : env.createReview owner repo pr.number "APPROVE" "" = .ok ()) :
    runPR env owner repo pr =
      (.ok .approved,
        [.pullsGet owner repo pr.number, .combinedStatus owner repo pr.headSha,
         .getAuthenticated, .listReviews owner repo pr.number,
         .createReview owner repo pr.number "APPROVE" ""]) ∧
    countCalls isCreateReviewCall (runPR env owner repo pr).2 = 1 := by
  have hsync := syncBranchIfBehind_not_stale env owner repo d hclean
  have happr : approvePullRequest env owner repo pr.number =
      (.ok (), [.getAuthenticated, .listReviews owner repo pr.number,
        .createReview owner repo pr.number "APPROVE" ""]) := by
    simp [approvePullRequest, hauth, hrev, hnodup, hcreate]
  have hr : runPR env owner repo pr =
      (.ok .approved,
        [.pullsGet owner repo pr.number, .combinedStatus owner repo pr.headSha,
         .getAuthenticated, .listReviews owner repo pr.number,
         .createReview owner repo pr.number "APPROVE" ""]) := by
    simp [runPR, hget, hsync, isPullRequestGreen, hstatus, happr]
  exact ⟨hr, by rw [hr]; simp [countCalls, isCreateReviewCall]⟩

/-- A fresh dependabot pull request, never approved before. -/
def prC9 : ListPR :=
  { number := 9, title := "bump z", userLogin := some "Dependabot[bot]", headSha := "sha9" }

/-- An environment for scenario 1: clean, green, never approved. -/
def envC9 : Env :=
  { orgGet := fun _ => .ok ()
    pullsList := fun _ _ => .ok [prC9]
    pullsGet := fun _ _ _ => .ok { number := 9, headSha := "sha9", mergeable_state := "clean" }
    updateBranch := fun _ _ _ _ => .ok ()
    combinedStatus := fun _ _ _ => .ok "success"
    getAuthenticated := .ok "me"
    listReviews := fun _ _ _ => .ok [{ userLogin := "other", state := "APPROVED" }]
    createReview := fun _ _ _ _ _ => .ok () }

/-- Witness for C9 at a concrete fresh, green, unapproved pull request. -/
theorem c9_witness :
    runPR envC9 "o" "r" prC9 =
      (.ok .approved,
        [.pullsGet "o" "r" 9, .combinedStatus "o" "r" "sha9",
         .getAuthenticated, .listReviews "o" "r" 9,
         .createReview "o" "r" 9 "APPROVE" ""]) ∧
    countCalls isCreateReviewCall (runPR envC9 "o" "r" prC9).2 = 1 :=
  c9_fresh_green_approved envC9 "o" "r" prC9
    { number := 9, headSha := "sha9", mergeable_state := "clean" } "me"
    [{ userLogin := "other", state := "APPROVED" }]
    (by decide) rfl (by decide) rfl rfl rfl rfl rfl

/-! ### C10: the CI query targets the head SHA from the list response -/

/-- C10: for a pull request that reaches the CI readiness step, the
combined-status query is issued against the head SHA taken from the initial
list response (`pr.headSha`), never against the head SHA of the freshly
re-fetched details — even when the two differ. -/
theorem c10_ci_uses_list_head_sha (env : Env) (owner repo : String)
    (pr : ListPR) (d : PRDetails)
    (hget : env.pullsGet owner repo pr.number = .ok d)
    (hclean : d.mergeable_state ∉ outdatedStates) :
    Call.combinedStatus owner repo pr.headSha ∈ (runPR env owner repo pr).2 ∧
    ∀ o r ref, Call.combinedStatus o r ref ∈ (runPR env owner repo pr).2 →
      ref = pr.headSha := by
  have hsync := syncBranchIfBehind_not_stale env owner repo d hclean
  have hgt := isPullRequestGreen_trace env owner repo pr
  cases hg : (isPullRequestGreen env owner repo pr).1 with
  | false =>
    have hr2 : (runPR env owner repo pr).2 =
        [Call.pullsGet owner repo pr.number,
         Call.combinedStatus owner repo pr.headSha] := by
      simp [runPR, hget, hsync, hg, hgt]
    rw [hr2]
    refine ⟨by simp, ?_⟩
    intro o r ref hm
    simp only [List.mem_cons, List.mem_singleton] at hm
    rcases hm with h | h | h
    · cases h
    · cases h; rfl
    · cases h
  | true =>
    have hr2 : (runPR env owner repo pr).2 =
        [Call.pullsGet owner repo pr.number,
         Call.combinedStatus owner repo pr.headSha] ++
          (approvePullRequest env owner repo pr.number).2 := by
      cases happr : (approvePullRequest env owner repo pr.number).1 with
      | error e' => simp [runPR, hget, hsync, hg, hgt, happr]
      | ok u => simp [runPR, hget, hsync, hg, hgt, happr]
    rw [hr2]
    refine ⟨by simp, ?_⟩
    intro o r ref hm
    rw [List.mem_append] at hm
    rcases hm with hm | hm
    · simp only [List.mem_cons, List.mem_singleton] at hm
      rcases hm with h | h | h
      · cases h
      · cases h; rfl
      · cases h
    · rcases approvePullRequest_calls env owner repo pr.number _ hm with h | h | h <;>
        cases h

/-- A pull request whose head moved between the list call and the details
fetch: the list reported "old", the details report "new". -/
def prC10 : ListPR :=
  { number := 4, title := "bump w", userLogin := some "dependabot[bot]", headSha := "old" }

/-- An environment where the details fetch returns a newer head SHA. -/
def envC10 : Env :=
  { orgGet := fun _ => .ok ()
    pullsList := fun _ _ => .ok [prC10]
    pullsGet := fun _ _ _ => .ok { number := 4, headSha := "new", mergeable_state := "clean" }
    updateBranch := fun _ _ _ _ => .ok ()
    combinedStatus := fun _ _ _ => .ok "success"
    getAuthenticated := .ok "me"
    listReviews := fun _ _ _ => .ok []
    createReview := fun _ _ _ _ _ => .ok () }

/-- Witness for C10: although the fresh details carry head SHA "new", the
CI query in the pass targets "old", the SHA from the list response. -/
theorem c10_witness :
    Call.combinedStatus "o" "r" "old" ∈ (runPR envC10 "o" "r" prC10).2 :=
  (c10_ci_uses_list_head_sha envC10 "o" "r" prC10
    { number := 4, headSha := "new", mergeable_state := "clean" } rfl (by decide)).1

/-! ### Counter monotonicity -/

/-- Pointwise order on the four counters. -/
def statsLe (a b : Stats) : Prop :=
  a.approved ≤ b.approved ∧ a.skipped ≤ b.skipped ∧
    a.updated ≤ b.updated ∧ a.saml_blocked ≤ b.saml_blocked

theorem statsLe_refl (a : Stats) : statsLe a a :=
  ⟨Nat.le_refl _, Nat.le_refl _, Nat.le_refl _, Nat.le_refl _⟩

theorem statsLe_trans {a b c : Stats} (h1 : statsLe a b) (h2 : statsLe b c) :
    statsLe a c :=
  ⟨Nat.le_trans h1.1 h2.1, Nat.le_trans h1.2.1 h2.2.1,
    Nat.le_trans h1.2.2.1 h2.2.2.1, Nat.le_trans h1.2.2.2 h2.2.2.2⟩

theorem statsLe_bump (o : POutcome) (s : Stats) : statsLe s (bumpStats o s) := by
  cases o <;> simp [bumpStats, statsLe]

theorem statsLe_catch (s : Stats) (e : ApiError) : statsLe s (catchUpdate s e) := by
  unfold catchUpdate
  split <;> simp [statsLe]

theorem statsLe_runPRs (env : Env) (owner repo : String) (s : Stats)
    (prs : List ListPR) : statsLe s (runPRs env owner repo s prs).1 := by
  induction prs generalizing s with
  | nil => exact statsLe_refl s
  | cons pr rest ih =>
    rcases h : runPR env owner repo pr with ⟨res, t⟩
    cases res with
    | error e => simp [runPRs, h]; exact statsLe_refl s
    | ok o =>
      simp only [runPRs, h]
      exact statsLe_trans (statsLe_bump o s) (ih (bumpStats o s))

theorem statsLe_body (env : Env) (owner repo : String) (s : Stats) :
    statsLe s (processRepoBody env owner repo s).1 := by
  unfold processRepoBody
  cases h : env.pullsList owner repo with
  | error e => exact statsLe_catch s e
  | ok prs =>
    cases h2 : (runPRs env owner repo s (prs.filter isDependabot)).2.2 with
    | none =>
      simp only [h2]
      exact statsLe_runPRs env owner repo s _
    | some e =>
      simp only [h2]
      exact statsLe_trans (statsLe_runPRs env owner repo s _) (statsLe_catch _ e)

theorem statsLe_afterGate (env : Env) (st : LoopState) (owner repo : String)
    (info : AccessInfo) (cache : List (String × AccessInfo)) (t : List Call) :
    statsLe st.stats (afterGate env st owner repo info cache t).stats := by
  unfold afterGate
  by_cases hA : info.hasAccess = true
  · simp only [hA, if_true]
    exact statsLe_body env _ _ _
  · simp only [hA, if_false, Bool.false_eq_true]
    exact ⟨Nat.le_refl _, Nat.le_refl _, Nat.le_refl _, Nat.le_succ _⟩

theorem statsLe_processLine (env : Env) (st : LoopState) (l : String) :
    statsLe st.stats (processLine env st l).stats := by
  unfold processLine
  split
  · exact statsLe_refl _
  · cases cacheLookup (lineOwner l) st.cache with
    | some info => exact statsLe_afterGate env st _ _ info _ _
    | none => exact statsLe_afterGate env st _ _ _ _ _

/-! ### C7: the run counters -/

/-- C7 (amended): the aggregator maintains four counters
{approved, skipped, updated, saml_blocked}, all starting at zero and only
ever incremented; a not-green pull request and an exception caught at the
repository boundary (other than 403/401) bump the same single `skipped`
counter, so the summary merges skipped-not-green and skipped-other. -/
theorem c7_counters (env : Env) :
    initState.stats =
      { approved := 0, skipped := 0, updated := 0, saml_blocked := 0 } ∧
    (∀ st l, statsLe st.stats (processLine env st l).stats) ∧
    (∀ s, bumpStats .notGreen s = { s with skipped := s.skipped + 1 }) ∧
    (∀ s e, e.status ≠ some 403 → e.status ≠ some 401 →
      catchUpdate s e = { s with skipped := s.skipped + 1 }) := by
  refine ⟨rfl, fun st l => statsLe_processLine env st l, fun s => rfl, ?_⟩
  intro s e h403 h401
  unfold catchUpdate
  rw [if_neg (by tauto)]

/-- Two dependabot pull requests used by the C7 runs. -/
def prC7a : ListPR :=
  { number := 1, title := "a", userLogin := some "dependabot[bot]", headSha := "s1" }

/-- Second pull request of the C7 runs. -/
def prC7b : ListPR :=
  { number := 2, title := "b", userLogin := some "dependabot[bot]", headSha := "s2" }

/-- Run A: both pull requests are simply not green. -/
def envC7A : Env :=
  { orgGet := fun _ => .ok ()
    pullsList := fun _ _ => .ok [prC7a, prC7b]
    pullsGet := fun _ _ n => .ok { number := n, headSha := "s", mergeable_state := "clean" }
    updateBranch := fun _ _ _ _ => .ok ()
    combinedStatus := fun _ _ _ => .ok "pending"
    getAuthenticated := .ok "me"
    listReviews := fun _ _ _ => .ok []
    createReview := fun _ _ _ _ _ => .ok () }

/-- Run B: the first pull request is not green, the second throws. -/
def envC7B : Env :=
  { envC7A with
    pullsGet := fun _ _ n =>
      if n = 2 then .error { status := none, message := "boom" }
      else .ok { number := n, headSha := "s", mergeable_state := "clean" } }

/-- Counterexample to C7 as stated: the aggregator does not keep
skipped-not-green and skipped-other as separate counters — run A (two
not-green PRs) and run B (one not-green PR and one unhandled exception)
produce identical final statistics, both with `skipped = 2`, even though
the inner loop finishes cleanly in A and aborts with an exception in B. -/
theorem c7_counterexample :
    (mainRun envC7A ["o/r"]).stats = (mainRun envC7B ["o/r"]).stats ∧
    (mainRun envC7A ["o/r"]).stats.skipped = 2 ∧
    (runPRs envC7A "o" "r" initState.stats [prC7a, prC7b]).2.2 = none ∧
    (runPRs envC7B "o" "r" initState.stats [prC7a, prC7b]).2.2 =
      some { status := none, message := "boom" } := by
  exact ⟨by decide, by decide, by decide, by decide⟩

/-- Witness for C7 (amended): one monotonicity step at a concrete state. -/
theorem c7_witness :
    statsLe initState.stats (processLine envC7A initState "o/r").stats :=
  (c7_counters envC7A).2.1 initState "o/r"

/-! ### C2: exception containment scope -/

/-- C2 (amended): an unhandled exception while processing one pull request
is caught at the per-repository boundary: it increments `skipped` once
(403/401 would instead increment `saml_blocked`), the remaining pull
requests of the SAME repository are abandoned for this pass, and the
remaining repository lines are still folded from the resulting state. -/
theorem c2_exception_scope (env : Env) (l owner repo : String)
    (pr1 pr2 : ListPR) (e : ApiError)
    (hown : lineOwner l = owner) (hrep : lineRepo l = repo)
    (ho : owner ≠ "") (hr : repo ≠ "")
    (horg : env.orgGet owner = .ok ())
    (hlist : env.pullsList owner repo = .ok [pr1, pr2])
    (hd1 : isDependabot pr1 = true) (hd2 : isDependabot pr2 = true)
    (hget : env.pullsGet owner repo pr1.number = .error e)
    (h403 : e.status ≠ some 403) (h401 : e.status ≠ some 401) :
    ∀ rest, mainRun env (l :: rest) =
      List.foldl (processLine env)
        { stats := { approved := 0, skipped := 1, updated := 0, saml_blocked := 0 },
          cache := [(owner, { hasAccess := true, error := none })],
          trace := [.orgGet owner, .pullsList owner repo, .pullsGet owner repo pr1.number] }
        rest := by
  intro rest
  have hchk : checkSAMLAccess env owner =
      ({ hasAccess := true, error := none }, [.orgGet owner]) := by
    simp [checkSAMLAccess, horg]
  have hrunPR : runPR env owner repo pr1 =
      (.error e, [.pullsGet owner repo pr1.number]) := by
    simp [runPR, hget]
  have hnot : ¬(e.status = some 403 ∨ e.status = some 401) := by tauto
  have hbody : processRepoBody env owner repo
        { approved := 0, skipped := 0, updated := 0, saml_blocked := 0 } =
      ({ approved := 0, skipped := 1, updated := 0, saml_blocked := 0 },
        [.pullsList owner repo, .pullsGet owner repo pr1.number]) := by
    unfold processRepoBody
    rw [hlist]
    simp [hd1, hd2, runPRs, hrunPR, catchUpdate, hnot]
  have hline : processLine env initState l =
      { stats := { approved := 0, skipped := 1, updated := 0, saml_blocked := 0 },
        cache := [(owner, { hasAccess := true, error := none })],
        trace := [.orgGet owner, .pullsList owner repo, .pullsGet owner repo pr1.number] } := by
    unfold processLine
    rw [hown, hrep, if_neg (by tauto)]
    have hcache : cacheLookup owner initState.cache = none := rfl
    rw [hcache]
    simp [gateStep, afterGate, hchk, hbody, initState]
  show List.foldl (processLine env) initState (l :: rest) = _
  rw [List.foldl_cons, hline]

/-- First pull request of the C2 repository. -/
def prC2a : ListPR :=
  { number := 1, title := "a", userLogin := some "dependabot[bot]", headSha := "sa" }

/-- Second pull request of the C2 repository: fully processable. -/
def prC2b : ListPR :=
  { number := 2, title := "b", userLogin := some "dependabot[bot]", headSha := "sb" }

/-- An environment where fetching details of PR 1 throws a generic error
while every call about PR 2 would succeed. -/
def envC2 : Env :=
  { orgGet := fun _ => .ok ()
    pullsList := fun _ _ => .ok [prC2a, prC2b]
    pullsGet := fun _ _ n =>
      if n = 1 then .error { status := some 500, message := "boom" }
      else .ok { number := n, headSha := "sb", mergeable_state := "clean" }
    updateBranch := fun _ _ _ _ => .ok ()
    combinedStatus := fun _ _ _ => .ok "success"
    getAuthenticated := .ok "me"
    listReviews := fun _ _ _ => .ok []
    createReview := fun _ _ _ _ _ => .ok () }

/-- Counterexample to C2 as stated: after the exception on PR 1, PR 2 of
the same repository is never fetched (no `pullsGet` for number 2 in the
trace), so processing does NOT continue with the remaining pull requests of
the same repository. -/
theorem c2_counterexample :
    (mainRun envC2 ["o/r"]).trace =
      [.orgGet "o", .pullsList "o" "r", .pullsGet "o" "r" 1] ∧
    (mainRun envC2 ["o/r"]).stats =
      { approved := 0, skipped := 1, updated := 0, saml_blocked := 0 } := by
  exact ⟨by decide, by decide⟩

/-- Witness for C2 (amended): the sibling repository line is still folded
from the post-exception state. -/
theorem c2_witness :
    mainRun envC2 ["o/r", "p/q"] =
      List.foldl (processLine envC2)
        { stats := { approved := 0, skipped := 1, updated := 0, saml_blocked := 0 },
          cache := [("o", { hasAccess := true, error := none })],
          trace := [.orgGet "o", .pullsList "o" "r", .pullsGet "o" "r" 1] }
        ["p/q"] :=
  c2_exception_scope envC2 "o/r" "o" "r" prC2a prC2b
    { status := some 500, message := "boom" }
    (by decide) (by decide) (by decide) (by decide) rfl rfl
    (by decide) (by decide) rfl (by decide) (by decide) ["p/q"]

/-! ### C6: a forbidden organization is short-circuited for the whole run -/

/-- One denied-access loop iteration: with the denial cached, a line under
the blocked organization only bumps `saml_blocked`. -/
theorem processLine_blocked (env : Env) (st : LoopState) (l owner : String)
    (info : AccessInfo) (hc : cacheLookup owner st.cache = some info)
    (hA : info.hasAccess = false) (hown : lineOwner l = owner)
    (hrep : lineRepo l ≠ "") (ho : owner ≠ "") :
    processLine env st l =
      { st with stats :=
          { st.stats with saml_blocked := st.stats.saml_blocked + 1 } } := by
  unfold processLine
  rw [hown, if_neg (by tauto), hc]
  simp [gateStep, afterGate, hA]

/-- Folding further lines of a blocked organization only counts them. -/
theorem blocked_fold (env : Env) (owner : String) (info : AccessInfo)
    (hA : info.hasAccess = false) (ho : owner ≠ "") :
    ∀ (lines : List String) (st : LoopState),
      cacheLookup owner st.cache = some info →
      (∀ l ∈ lines, lineOwner l = owner ∧ lineRepo l ≠ "") →
      List.foldl (processLine env) st lines =
        { st with stats := { st.stats with
            saml_blocked := st.stats.saml_blocked + lines.length } } := by
  intro lines
  induction lines with
  | nil => intro st _ _; rfl
  | cons l rest ih =>
    intro st hc hl
    have hstep := processLine_blocked env st l owner info hc hA
      (hl l (by simp)).1 (hl l (by simp)).2 ho
    rw [List.foldl_cons, hstep,
      ih { st with stats :=
            { st.stats with saml_blocked := st.stats.saml_blocked + 1 } }
        hc (fun x hx => hl x (by simp [hx]))]
    have harith : st.stats.saml_blocked + 1 + rest.length =
        st.stats.saml_blocked + (rest.length + 1) := by omega
    simp [harith]

/-- C6: if the organization probe returns 403, the run issues no call for
that organization beyond the single probe, and `saml_blocked` is
incremented once per repository line under the organization (regardless of
how many pull requests the repositories hold). -/
theorem c6_forbidden_org_short_circuit (env : Env) (owner : String)
    (e : ApiError) (horg : env.orgGet owner = .error e)
    (h403 : e.status = some 403) (ho : owner ≠ "")
    (lines : List String) (hne : lines ≠ [])
    (hl : ∀ l ∈ lines, lineOwner l = owner ∧ lineRepo l ≠ "") :
    (mainRun env lines).stats.saml_blocked = lines.length ∧
    (mainRun env lines).trace = [Call.orgGet owner] := by
  cases lines with
  | nil => exact absurd rfl hne
  | cons l rest =>
    have hchk : checkSAMLAccess env owner =
        ({ hasAccess := false, error := some (samlForbiddenMsg owner) },
          [.orgGet owner]) := by
      simp [checkSAMLAccess, horg, h403]
    have hline : processLine env initState l =
        { stats := { approved := 0, skipped := 0, updated := 0, saml_blocked := 1 },
          cache := [(owner, { hasAccess := false, error := some (samlForbiddenMsg owner) })],
          trace := [.orgGet owner] } := by
      unfold processLine
      rw [(hl l (by simp)).1,
        if_neg (by exact not_or.mpr ⟨ho, (hl l (by simp)).2⟩)]
      have hcache : cacheLookup owner initState.cache = none := rfl
      rw [hcache]
      simp [gateStep, afterGate, hchk, initState]
    have hmain : mainRun env (l :: rest) =
        List.foldl (processLine env) (processLine env initState l) rest := rfl
    rw [hmain, hline,
      blocked_fold env owner
        { hasAccess := false, error := some (samlForbiddenMsg owner) } rfl ho rest _
        (by simp [cacheLookup]) (fun x hx => hl x (by simp [hx]))]
    simp [Nat.add_comm]

/-- An environment whose organization probe returns 403 but whose
repositories would otherwise expose pull requests. -/
def envC6 : Env :=
  { orgGet := fun _ => .error { status := some 403, message := "saml" }
    pullsList := fun _ _ => .ok
      [{ number := 1, title := "a", userLogin := some "dependabot[bot]", headSha := "x" }]
    pullsGet := fun _ _ _ => .ok { number := 1, headSha := "x", mergeable_state := "clean" }
    updateBranch := fun _ _ _ _ => .ok ()
    combinedStatus := fun _ _ _ => .ok "success"
    getAuthenticated := .ok "me"
    listReviews := fun _ _ _ => .ok []
    createReview := fun _ _ _ _ _ => .ok () }

/-- Witness for C6: two repositories under a forbidden organization yield
one probe in the whole trace and a per-repository blocked count of 2. -/
theorem c6_witness :
    (mainRun envC6 ["acme/r1", "acme/r2"]).stats.saml_blocked = 2 ∧
    (mainRun envC6 ["acme/r1", "acme/r2"]).trace = [Call.orgGet "acme"] :=
  c6_forbidden_org_short_circuit envC6 "acme"
    { status := some 403, message := "saml" } rfl rfl (by decide)
    ["acme/r1", "acme/r2"] (by decide) (by decide)

/-! ### C8: the organization probe is issued at most once per run -/

/-- Is this call an organization probe (for any organization)? -/
def isOrgCall : Call → Bool
  | .orgGet _ => true
  | _ => false

theorem orgGetFor_false_of_not_org {c : Call} (w : String)
    (h : isOrgCall c = false) : isOrgGetFor w c = false := by
  cases c <;> simp_all [isOrgCall, isOrgGetFor]

theorem runPR_no_org (env : Env) (owner repo : String) (pr : ListPR) :
    ∀ c ∈ (runPR env owner repo pr).2, isOrgCall c = false := by
  cases hget : env.pullsGet owner repo pr.number with
  | error e => simp [runPR, hget, isOrgCall]
  | ok d =>
    rcases hsync : syncBranchIfBehind env owner repo d with ⟨sb, stail⟩
    have hst : ∀ c ∈ stail, isOrgCall c = false := by
      intro c hc
      have := syncBranchIfBehind_calls env owner repo d c (by rw [hsync]; exact hc)
      simp [this, isOrgCall]
    have hgt := isPullRequestGreen_trace env owner repo pr
    cases sb with
    | true =>
      intro c hc
      simp only [runPR, hget, hsync] at hc
      simp at hc
      rcases hc with h | h
      · simp [h, isOrgCall]
      · exact hst c h
    | false =>
      cases hg : (isPullRequestGreen env owner repo pr).1 with
      | false =>
        intro c hc
        simp only [runPR, hget, hsync, hg, hgt] at hc
        simp at hc
        rcases hc with h | h | h
        · simp [h, isOrgCall]
        · exact hst c h
        · simp [h, isOrgCall]
      | true =>
        intro c hc
        have happr := approvePullRequest_calls env owner repo pr.number
        rcases ha : approvePullRequest env owner repo pr.number with ⟨ares, atail⟩
        have hat : ∀ c ∈ atail, isOrgCall c = false := by
          intro c hc2
          rcases happr c (by rw [ha]; exact hc2) with h | h | h <;>
            simp [h, isOrgCall]
        cases ares with
        | error e2 =>
          simp only [runPR, hget, hsync, hg, hgt, ha] at hc
          simp at hc
          rcases hc with h | h | h | h
          · simp [h, isOrgCall]
          · exact hst c h
          · simp [h, isOrgCall]
          · exact hat c h
        | ok u =>
          simp only [runPR, hget, hsync, hg, hgt, ha] at hc
          simp at hc
          rcases hc with h | h | h | h
          · simp [h, isOrgCall]
          · exact hst c h
          · simp [h, isOrgCall]
          · exact hat c h

theorem runPRs_no_org (env : Env) (owner repo : String) :
    ∀ (prs : List ListPR) (s : Stats),
      ∀ c ∈ (runPRs env owner repo s prs).2.1, isOrgCall c = false := by
  intro prs
  induction prs with
  | nil => intro s c hc; simp [runPRs] at hc
  | cons pr rest ih =>
    intro s c hc
    rcases h : runPR env owner repo pr with ⟨res, t⟩
    have hpr : ∀ c ∈ t, isOrgCall c = false := by
      intro c hc2
      exact runPR_no_org env owner repo pr c (by rw [h]; exact hc2)
    cases res with
    | error e =>
      simp only [runPRs, h] at hc
      exact hpr c hc
    | ok o =>
      simp only [runPRs, h] at hc
      rw [List.mem_append] at hc
      rcases hc with hc | hc
      · exact hpr c hc
      · exact ih (bumpStats o s) c hc

theorem processRepoBody_no_org (env : Env) (owner repo : String) (s : Stats) :
    ∀ c ∈ (processRepoBody env owner repo s).2, isOrgCall c = false := by
  unfold processRepoBody
  cases h : env.pullsList owner repo with
  | error e => simp [isOrgCall]
  | ok prs =>
    cases h2 : (runPRs env owner repo s (prs.filter isDependabot)).2.2 with
    | none =>
      simp only [h2]
      intro c hc
      rcases List.mem_cons.mp hc with h3 | h3
      · simp [h3, isOrgCall]
      · exact runPRs_no_org env owner repo _ s c h3
    | some e =>
      simp only [h2]
      intro c hc
      rcases List.mem_cons.mp hc with h3 | h3
      · simp [h3, isOrgCall]
      · exact runPRs_no_org env owner repo _ s c h3

theorem countOrg_body_zero (env : Env) (owner repo : String) (s : Stats)
    (w : String) :
    countCalls (isOrgGetFor w) (processRepoBody env owner repo s).2 = 0 :=
  countCalls_eq_zero_of_forall (fun c hc =>
    orgGetFor_false_of_not_org w (processRepoBody_no_org env owner repo s c hc))

/-- One loop iteration probes an organization only on a cache miss for that
organization, and a probed organization enters the cache: the probe count
for a fixed organization stays at most one, and a cached decision is never
replaced. -/
theorem countCalls_nil (p : Call → Bool) : countCalls p [] = 0 := rfl

theorem processLine_org_step (env : Env) (owner : String) (st : LoopState)
    (l : String)
    (h0 : cacheLookup owner st.cache = none →
      countCalls (isOrgGetFor owner) st.trace = 0)
    (h1 : countCalls (isOrgGetFor owner) st.trace ≤ 1) :
    (cacheLookup owner (processLine env st l).cache = none →
      countCalls (isOrgGetFor owner) (processLine env st l).trace = 0) ∧
    countCalls (isOrgGetFor owner) (processLine env st l).trace ≤ 1 := by
  unfold processLine
  split
  · exact ⟨h0, h1⟩
  · cases hc : cacheLookup (lineOwner l) st.cache with
    | some info =>
      unfold gateStep afterGate
      dsimp only
      by_cases hA : info.hasAccess = true
      · rw [if_pos hA]
        have e1 : countCalls (isOrgGetFor owner)
            (st.trace ++ [] ++
              (processRepoBody env (lineOwner l) (lineRepo l) st.stats).2) =
            countCalls (isOrgGetFor owner) st.trace := by
          rw [countCalls_append, countCalls_append, countOrg_body_zero,
            countCalls_nil]
          omega
        refine ⟨fun hnone => ?_, ?_⟩
        · rw [e1]; exact h0 hnone
        · rw [e1]; exact h1
      · rw [if_neg hA]
        have e1 : countCalls (isOrgGetFor owner) (st.trace ++ []) =
            countCalls (isOrgGetFor owner) st.trace := by
          rw [countCalls_append, countCalls_nil]
          omega
        refine ⟨fun hnone => ?_, ?_⟩
        · rw [e1]; exact h0 hnone
        · rw [e1]; exact h1
    | none =>
      have hct := checkSAMLAccess_trace env (lineOwner l)
      unfold gateStep afterGate
      dsimp only
      by_cases howner : lineOwner l = owner
      · have hst0 : countCalls (isOrgGetFor owner) st.trace = 0 :=
          h0 (howner ▸ hc)
        have hcount : countCalls (isOrgGetFor owner)
            (checkSAMLAccess env (lineOwner l)).2 = 1 := by
          rw [hct, howner]
          simp [countCalls, isOrgGetFor]
        have hlooknew : cacheLookup owner
            ((lineOwner l, (checkSAMLAccess env (lineOwner l)).1) :: st.cache) =
            some (checkSAMLAccess env (lineOwner l)).1 := by
          simp [cacheLookup, howner]
        by_cases hA : (checkSAMLAccess env (lineOwner l)).1.hasAccess = true
        · rw [if_pos hA]
          refine ⟨fun hnone => ?_, ?_⟩
          · rw [hlooknew] at hnone; cases hnone
          · rw [countCalls_append, countCalls_append, countOrg_body_zero,
              hst0, hcount]
        · rw [if_neg hA]
          refine ⟨fun hnone => ?_, ?_⟩
          · rw [hlooknew] at hnone; cases hnone
          · rw [countCalls_append, hst0, hcount]
      · have hcount : countCalls (isOrgGetFor owner)
            (checkSAMLAccess env (lineOwner l)).2 = 0 := by
          rw [hct]
          simp [countCalls, isOrgGetFor, howner]
        have hlook : cacheLookup owner
            ((lineOwner l, (checkSAMLAccess env (lineOwner l)).1) :: st.cache) =
            cacheLookup owner st.cache := by
          simp [cacheLookup, howner]
        by_cases hA : (checkSAMLAccess env (lineOwner l)).1.hasAccess = true
        · rw [if_pos hA]
          have e1 : countCalls (isOrgGetFor owner)
              (st.trace ++ (checkSAMLAccess env (lineOwner l)).2 ++
                (processRepoBody env (lineOwner l) (lineRepo l) st.stats).2) =
              countCalls (isOrgGetFor owner) st.trace := by
            rw [countCalls_append, countCalls_append, countOrg_body_zero,
              hcount]
            omega
          refine ⟨fun hnone => ?_, ?_⟩
          · rw [hlook] at hnone
            rw [e1]; exact h0 hnone
          · rw [e1]; exact h1
        · rw [if_neg hA]
          have e1 : countCalls (isOrgGetFor owner)
              (st.trace ++ (checkSAMLAccess env (lineOwner l)).2) =
              countCalls (isOrgGetFor owner) st.trace := by
            rw [countCalls_append, hcount]
            omega
          refine ⟨fun hnone => ?_, ?_⟩
          · rw [hlook] at hnone
            rw [e1]; exact h0 hnone
          · rw [e1]; exact h1

/-- The probe-count invariant is preserved along the whole fold. -/
theorem org_probe_fold (env : Env) (owner : String) :
    ∀ (lines : List String) (st : LoopState),
      (cacheLookup owner st.cache = none →
        countCalls (isOrgGetFor owner) st.trace = 0) →
      countCalls (isOrgGetFor owner) st.trace ≤ 1 →
      countCalls (isOrgGetFor owner)
        (List.foldl (processLine env) st lines).trace ≤ 1 := by
  intro lines
  induction lines with
  | nil => intro st _ h1; exact h1
  | cons l rest ih =>
    intro st h0 h1
    have hstep := processLine_org_step env owner st l h0 h1
    exact ih (processLine env st l) hstep.1 hstep.2

/-- A cached access decision survives every later loop iteration. -/
theorem processLine_cache_stable (env : Env) (owner : String)
    (st : LoopState) (l : String) (info : AccessInfo)
    (h : cacheLookup owner st.cache = some info) :
    cacheLookup owner (processLine env st l).cache = some info := by
  unfold processLine
  split
  · exact h
  · cases hc : cacheLookup (lineOwner l) st.cache with
    | some i2 =>
      unfold gateStep afterGate
      dsimp only
      by_cases hA : i2.hasAccess = true
      · simp only [hA, if_true]; exact h
      · simp only [hA, if_false, Bool.false_eq_true]; exact h
    | none =>
      have howner : lineOwner l ≠ owner := by
        intro heq
        rw [heq, h] at hc
        cases hc
      unfold gateStep afterGate
      dsimp only
      by_cases hA : (checkSAMLAccess env (lineOwner l)).1.hasAccess = true
      · simp only [hA, if_true]
        simp [cacheLookup, howner, h]
      · simp only [hA, if_false, Bool.false_eq_true]
        simp [cacheLookup, howner, h]

/-- C8: for every run and every organization, at most one access probe is
issued for that organization across the whole run, and a cached access
decision, once stored, is reused unchanged by every later iteration. -/
theorem c8_probe_at_most_once (env : Env) (owner : String) :
    (∀ lines, countCalls (isOrgGetFor owner) (mainRun env lines).trace ≤ 1) ∧
    (∀ st l info, cacheLookup owner st.cache = some info →
      cacheLookup owner (processLine env st l).cache = some info) := by
  constructor
  · intro lines
    exact org_probe_fold env owner lines initState (fun _ => rfl) (by simp [countCalls, initState])
  · intro st l info h
    exact processLine_cache_stable env owner st l info h

/-- A state whose cache already holds a granted decision for "o". -/
def stC8 : LoopState :=
  { stats := { approved := 0, skipped := 0, updated := 0, saml_blocked := 0 },
    cache := [("o", { hasAccess := true, error := none })], trace := [] }

/-- Witness for C8: the cached decision for "o" survives processing a
further line of the same organization. -/
theorem c8_witness :
    cacheLookup "o" (processLine envC6 stC8 "o/r").cache =
      some { hasAccess := true, error := none } :=
  (c8_probe_at_most_once envC6 "o").2 stC8 "o/r"
    { hasAccess := true, error := none } rfl

end Approver
